import Mathlib

/-!
Verification of the lending-pool accounting core (pool reserve accrual,
submit orchestration, bad-debt transfer) and the backstop emissions
distributor, against a shallow embedding of the contract source.

Machine integers (i128, u32, u64) are embedded as Int/Nat; the
soroban_fixed_point_math operations are embedded with explicit
floor/ceiling integer division (Int.fdiv rounds toward negative
infinity, matching div_floor on i128; the ceiling variants are derived
from it).
-/

namespace Blend

/-! ### Fixed-point arithmetic (soroban_fixed_point_math on i128) -/

def SCALAR_7 : Int := 10000000

def SCALAR_9 : Int := 1000000000

def MIN_HEALTH_FACTOR : Int := 10000100

/-- Ceiling division, rounding toward positive infinity (for positive divisors). -/
def ceilDiv (a b : Int) : Int := -(Int.fdiv (-a) b)

/-- x.fixed_mul_floor(y, d) = floor(x * y / d). -/
def fixed_mul_floor (x y d : Int) : Int := Int.fdiv (x * y) d

/-- x.fixed_mul_ceil(y, d) = ceil(x * y / d). -/
def fixed_mul_ceil (x y d : Int) : Int := ceilDiv (x * y) d

/-- x.fixed_div_floor(y, d) = floor(x * d / y). -/
def fixed_div_floor (x y d : Int) : Int := Int.fdiv (x * d) y

/-- x.fixed_div_ceil(y, d) = ceil(x * d / y). -/
def fixed_div_ceil (x y d : Int) : Int := ceilDiv (x * d) y

theorem ceilDiv_eq_neg_ediv_neg (a : Int) {b : Int} (hb : 0 ≤ b) :
    ceilDiv a b = -((-a) / b) := by
  simp [ceilDiv, Int.fdiv_eq_ediv _ hb]

theorem le_mul_ceilDiv (a : Int) {b : Int} (hb : 0 < b) : a ≤ ceilDiv a b * b := by
  rw [ceilDiv_eq_neg_ediv_neg a hb.le]
  have h := Int.ediv_mul_le (-a) (by omega : b ≠ 0)
  have hexp : -((-a) / b) * b = -(((-a) / b) * b) := by ring
  omega

theorem ceilDiv_sub_one_mul_lt (a : Int) {b : Int} (hb : 0 < b) :
    (ceilDiv a b - 1) * b < a := by
  rw [ceilDiv_eq_neg_ediv_neg a hb.le]
  have h := Int.lt_ediv_add_one_mul_self (-a) hb
  have hexp : (-((-a) / b) - 1) * b = -(((-a) / b + 1) * b) := by ring
  omega

theorem le_ceilDiv_of_mul_le {a b c : Int} (hb : 0 < b) (h : c * b ≤ a) :
    c ≤ ceilDiv a b := by
  have h2 : c * b ≤ ceilDiv a b * b := le_trans h (le_mul_ceilDiv a hb)
  exact le_of_mul_le_mul_right h2 hb

theorem ceilDiv_le_of_le_mul {a b c : Int} (hb : 0 < b) (h : a ≤ c * b) :
    ceilDiv a b ≤ c := by
  have h2 : (ceilDiv a b - 1) * b < c * b := lt_of_lt_of_le (ceilDiv_sub_one_mul_lt a hb) h
  have h3 : ceilDiv a b - 1 < c := lt_of_mul_lt_mul_right h2 hb.le
  omega

theorem ceilDiv_le_ceilDiv {a a' b : Int} (hb : 0 < b) (h : a ≤ a') :
    ceilDiv a b ≤ ceilDiv a' b :=
  ceilDiv_le_of_le_mul hb (le_trans h (le_mul_ceilDiv a' hb))

theorem ceilDiv_mul_cancel {b : Int} (c : Int) (hb : 0 < b) : ceilDiv (c * b) b = c :=
  le_antisymm (ceilDiv_le_of_le_mul hb (le_refl _)) (le_ceilDiv_of_mul_le hb (le_refl _))

theorem ceilDiv_nonneg {a b : Int} (ha : 0 ≤ a) (hb : 0 < b) : 0 ≤ ceilDiv a b :=
  le_ceilDiv_of_mul_le hb (by omega)

/-! ### Reserve (src/pool/src/pool/reserve.rs) -/

structure Reserve where
  asset : Nat
  index : Nat
  l_factor : Int
  c_factor : Int
  max_util : Int
  last_time : Nat
  scalar : Int
  d_rate : Int
  b_rate : Int
  ir_mod : Int
  b_supply : Int
  d_supply : Int
  backstop_credit : Int
  collateral_cap : Int
  enabled : Bool
deriving DecidableEq, Repr

/-- Convert d_tokens to the corresponding asset value (ceiling). -/
def Reserve.to_asset_from_d_token (r : Reserve) (d_tokens : Int) : Int :=
  fixed_mul_ceil d_tokens r.d_rate SCALAR_9

/-- Convert b_tokens to the corresponding asset value (floor). -/
def Reserve.to_asset_from_b_token (r : Reserve) (b_tokens : Int) : Int :=
  fixed_mul_floor b_tokens r.b_rate SCALAR_9

/-- Convert d_tokens to the effective asset value (liability factor, ceiling). -/
def Reserve.to_effective_asset_from_d_token (r : Reserve) (d_tokens : Int) : Int :=
  fixed_div_ceil (r.to_asset_from_d_token d_tokens) r.l_factor SCALAR_7

/-- Convert b_tokens to the effective asset value (collateral factor, floor). -/
def Reserve.to_effective_asset_from_b_token (r : Reserve) (b_tokens : Int) : Int :=
  fixed_mul_floor (r.to_asset_from_b_token b_tokens) r.c_factor SCALAR_7

/-- Convert asset tokens to the corresponding d token value, rounding up. -/
def Reserve.to_d_token_up (r : Reserve) (amount : Int) : Int :=
  fixed_div_ceil amount r.d_rate SCALAR_9

/-- Convert asset tokens to the corresponding d token value, rounding down. -/
def Reserve.to_d_token_down (r : Reserve) (amount : Int) : Int :=
  fixed_div_floor amount r.d_rate SCALAR_9

/-- Convert asset tokens to the corresponding b token value, rounding up. -/
def Reserve.to_b_token_up (r : Reserve) (amount : Int) : Int :=
  fixed_div_ceil amount r.b_rate SCALAR_9

/-- Convert asset tokens to the corresponding b token value, rounding down. -/
def Reserve.to_b_token_down (r : Reserve) (amount : Int) : Int :=
  fixed_div_floor amount r.b_rate SCALAR_9

/-- Total liabilities of the reserve in underlying tokens. -/
def Reserve.total_liabilities (r : Reserve) : Int :=
  r.to_asset_from_d_token r.d_supply

/-- Total supply of the reserve in underlying tokens. -/
def Reserve.total_supply (r : Reserve) : Int :=
  r.to_asset_from_b_token r.b_supply

/-- Utilization rate of the reserve, 7-decimal, ceiling-rounded. -/
def Reserve.utilization (r : Reserve) : Int :=
  fixed_div_ceil r.total_liabilities r.total_supply SCALAR_7

/-- Accrue tokens to the reserve supply, issuing backstop credit and
updating b_rate (Reserve::gulp). -/
def Reserve.gulp (r : Reserve) (bstop_rate accrued : Int) : Reserve :=
  let pre_update_supply := r.total_supply
  if accrued > 0 then
    let new_backstop_credit : Int :=
      if bstop_rate > 0 then fixed_mul_floor accrued bstop_rate SCALAR_7 else 0
    { r with
      backstop_credit := r.backstop_credit + new_backstop_credit,
      b_rate :=
        fixed_div_floor (pre_update_supply + accrued - new_backstop_credit)
          r.b_supply SCALAR_9 }
  else r

/-- Load a Reserve and update it to the current timestamp (Reserve::load).
The interest-rate curve calc_accrual is an external collaborator of this
core; it is passed in as a function of (utilization, ir_mod, last_time)
returning (accrual_factor, new_ir_mod). -/
def Reserve.load (r : Reserve) (now : Nat) (bstop_rate : Int)
    (calcAccrual : Int → Int → Nat → Int × Int) : Reserve :=
  if now = r.last_time then r
  else if r.b_supply = 0 then { r with last_time := now }
  else if r.utilization = 0 then { r with last_time := now }
  else
    let acc := calcAccrual r.utilization r.ir_mod r.last_time
    let r1 := { r with ir_mod := acc.2 }
    let pre_update_liabilities := r1.total_liabilities
    let r2 := { r1 with d_rate := fixed_mul_ceil acc.1 r1.d_rate SCALAR_9 }
    let accrued_interest := r2.total_liabilities - pre_update_liabilities
    let r3 := r2.gulp bstop_rate accrued_interest
    { r3 with last_time := now }

/-! ### Claim C5: exact behavior of Reserve::gulp -/

/-- C5: for every reserve state (with positive b_supply, so the fixed-point
division does not abort) and every nonnegative backstop take rate,
gulp(bstop_rate, accrued) with accrued > 0 adds exactly
floor(accrued * bstop_rate / 10^7) to backstop_credit and sets b_rate to
floor((pre_update_supply + accrued - credit_delta) * 10^9 / b_supply) where
pre_update_supply is the total supply before the update; with accrued ≤ 0
the reserve state is completely unchanged. -/
theorem c5_gulp_exact (r : Reserve) (bstop_rate accrued : Int)
    (hrate : 0 ≤ bstop_rate) (hb : 0 < r.b_supply) :
    (0 < accrued →
      r.gulp bstop_rate accrued =
        { r with
          backstop_credit := r.backstop_credit + Int.fdiv (accrued * bstop_rate) SCALAR_7,
          b_rate := Int.fdiv
            ((r.total_supply + accrued - Int.fdiv (accrued * bstop_rate) SCALAR_7) * SCALAR_9)
            r.b_supply }) ∧
    (accrued ≤ 0 → r.gulp bstop_rate accrued = r) := by
  constructor
  · intro hacc
    unfold Reserve.gulp
    rw [if_pos hacc]
    rcases lt_or_eq_of_le hrate with h | h
    · rw [if_pos h]
      simp [fixed_mul_floor, fixed_div_floor]
    · rw [if_neg (by omega)]
      simp [← h, fixed_div_floor]
  · intro hacc
    unfold Reserve.gulp
    rw [if_neg (by omega)]

/-- Concrete reserve used to witness C5 (values from the gulp unit test). -/
def c5Reserve : Reserve :=
  { asset := 0, index := 0, l_factor := 7500000, c_factor := 7500000,
    max_util := 9500000, last_time := 0, scalar := 10000000,
    d_rate := 1000000000, b_rate := 1000000000, ir_mod := 1000000000,
    b_supply := 1000000000, d_supply := 750000000, backstop_credit := 1234567,
    collateral_cap := 1000000000000000, enabled := true }

theorem c5_gulp_exact_witness :
    c5Reserve.gulp 2000000 1000000000 =
      { c5Reserve with
        backstop_credit := c5Reserve.backstop_credit +
          Int.fdiv ((1000000000 : Int) * 2000000) SCALAR_7,
        b_rate := Int.fdiv
          ((c5Reserve.total_supply + 1000000000 -
            Int.fdiv ((1000000000 : Int) * 2000000) SCALAR_7) * SCALAR_9)
          c5Reserve.b_supply } :=
  (c5_gulp_exact c5Reserve 2000000 1000000000 (by norm_num)
    (by norm_num [c5Reserve])).1 (by norm_num)

/-! ### Claim C8: round trip of the d-token conversions -/

/-- Reserve state refuting C8 as stated: a d_rate strictly below 10^9 is a
reserve state for which the lower round-trip bound fails. -/
def c8Reserve : Reserve :=
  { asset := 0, index := 0, l_factor := 7500000, c_factor := 7500000,
    max_util := 9500000, last_time := 0, scalar := 10000000,
    d_rate := 500000000, b_rate := 1000000000, ir_mod := 1000000000,
    b_supply := 1000000000, d_supply := 0, backstop_credit := 0,
    collateral_cap := 1000000000000000, enabled := true }

/-- C8 counterexample: at d_rate = 0.5 (9-decimal) and x = 1 the claimed bound
x ≥ to_d_token_down(to_asset_from_d_token(x)) fails: the round trip gives 2. -/
theorem c8_counterexample :
    c8Reserve.to_d_token_down (c8Reserve.to_asset_from_d_token 1) = 2 ∧
    ¬ ((1 : Int) ≥ c8Reserve.to_d_token_down (c8Reserve.to_asset_from_d_token 1)) := by
  constructor
  · rfl
  · decide

/-- C8 (amended): for every reserve state whose d_rate is at least 10^9 (the
initial d_rate, below which it never moves since rates only accrue upward)
and every d-token amount x,
to_d_token_up(to_asset_from_d_token(x)) ≥ x ≥ to_d_token_down(to_asset_from_d_token(x)). -/
theorem c8_round_trip (r : Reserve) (x : Int) (hd : SCALAR_9 ≤ r.d_rate) :
    x ≤ r.to_d_token_up (r.to_asset_from_d_token x) ∧
    r.to_d_token_down (r.to_asset_from_d_token x) ≤ x := by
  have hd9 : (0 : Int) < SCALAR_9 := by norm_num [SCALAR_9]
  have hdp : (0 : Int) < r.d_rate := lt_of_lt_of_le hd9 hd
  have haup : x * r.d_rate ≤ r.to_asset_from_d_token x * SCALAR_9 := by
    unfold Reserve.to_asset_from_d_token fixed_mul_ceil
    exact le_mul_ceilDiv (x * r.d_rate) hd9
  have halow : (r.to_asset_from_d_token x - 1) * SCALAR_9 < x * r.d_rate := by
    unfold Reserve.to_asset_from_d_token fixed_mul_ceil
    exact ceilDiv_sub_one_mul_lt (x * r.d_rate) hd9
  constructor
  · unfold Reserve.to_d_token_up fixed_div_ceil
    exact le_ceilDiv_of_mul_le hdp haup
  · unfold Reserve.to_d_token_down fixed_div_floor
    rw [Int.fdiv_eq_ediv _ hdp.le]
    have hlt : r.to_asset_from_d_token x * SCALAR_9 < (x + 1) * r.d_rate := by
      simp only [SCALAR_9] at halow hd ⊢
      nlinarith
    by_contra hcon
    push_neg at hcon
    have hle := (Int.le_ediv_iff_mul_le hdp).mp (by omega :
      x + 1 ≤ (r.to_asset_from_d_token x * SCALAR_9) / r.d_rate)
    nlinarith

/-- Concrete reserve used to witness the amended C8. -/
def c8WitReserve : Reserve :=
  { c8Reserve with d_rate := 1321834961 }

theorem c8_round_trip_witness :
    SCALAR_9 ≤ c8WitReserve.d_rate ∧
    ((14850243 : Int) ≤ c8WitReserve.to_d_token_up (c8WitReserve.to_asset_from_d_token 14850243) ∧
      c8WitReserve.to_d_token_down (c8WitReserve.to_asset_from_d_token 14850243) ≤ 14850243) :=
  ⟨by decide, c8_round_trip c8WitReserve 14850243 (by decide)⟩

/-! ### Claim C3: monotonicity of d_rate and b_rate -/

theorem gulp_d_rate_eq (r : Reserve) (bstop_rate accrued : Int) :
    (r.gulp bstop_rate accrued).d_rate = r.d_rate := by
  unfold Reserve.gulp
  split <;> rfl

theorem gulp_b_supply_eq (r : Reserve) (bstop_rate accrued : Int) :
    (r.gulp bstop_rate accrued).b_supply = r.b_supply := by
  unfold Reserve.gulp
  split <;> rfl

/-- gulp never decreases b_rate provided the backstop take rate is strictly
below 100% (10^7 in 7-decimal fixed point). -/
theorem gulp_b_rate_le (r : Reserve) (bstop_rate accrued : Int)
    (hb : 0 < r.b_supply) (hbr : 0 ≤ r.b_rate)
    (hr0 : 0 ≤ bstop_rate) (hr1 : bstop_rate < SCALAR_7) :
    r.b_rate ≤ (r.gulp bstop_rate accrued).b_rate := by
  unfold Reserve.gulp
  by_cases h : accrued > 0
  · rw [if_pos h]
    have h7 : (0 : Int) < SCALAR_7 := by norm_num [SCALAR_7]
    set nbc : Int :=
      if bstop_rate > 0 then fixed_mul_floor accrued bstop_rate SCALAR_7 else 0 with hnbc
    have hnbc_lt : nbc < accrued := by
      rw [hnbc]
      split
      · unfold fixed_mul_floor
        rw [Int.fdiv_eq_ediv _ h7.le]
        have h1 : accrued * bstop_rate / SCALAR_7 * SCALAR_7 ≤ accrued * bstop_rate :=
          Int.ediv_mul_le _ (by omega)
        have h2 : accrued * bstop_rate < accrued * SCALAR_7 :=
          mul_lt_mul_of_pos_left hr1 h
        have h3 : accrued * bstop_rate / SCALAR_7 * SCALAR_7 < accrued * SCALAR_7 := by omega
        exact lt_of_mul_lt_mul_right h3 h7.le
      · omega
    have hpre : r.b_supply * r.b_rate < (r.total_supply + 1) * SCALAR_9 := by
      unfold Reserve.total_supply Reserve.to_asset_from_b_token fixed_mul_floor
      rw [Int.fdiv_eq_ediv _ (by norm_num [SCALAR_9])]
      exact Int.lt_ediv_add_one_mul_self _ (by norm_num [SCALAR_9])
    show r.b_rate ≤ fixed_div_floor (r.total_supply + accrued - nbc) r.b_supply SCALAR_9
    unfold fixed_div_floor
    rw [Int.fdiv_eq_ediv _ hb.le]
    rw [Int.le_ediv_iff_mul_le hb]
    have hexp1 : (r.total_supply + 1) * SCALAR_9 ≤ (r.total_supply + accrued - nbc) * SCALAR_9 := by
      have : r.total_supply + 1 ≤ r.total_supply + accrued - nbc := by omega
      exact mul_le_mul_of_nonneg_right this (by norm_num [SCALAR_9])
    calc r.b_rate * r.b_supply = r.b_supply * r.b_rate := by ring
      _ ≤ (r.total_supply + accrued - nbc) * SCALAR_9 := by omega
  · rw [if_neg h]

/-- Reserve state refuting C3 as stated: with a 100% backstop take rate
(bstop_rate = 10^7, a representable u32 input not rejected by this code) and
a floor-rounding remainder in the pre-update supply, gulp with accrued > 0
strictly decreases b_rate. -/
def c3Reserve : Reserve :=
  { asset := 0, index := 0, l_factor := 7500000, c_factor := 7500000,
    max_util := 9500000, last_time := 0, scalar := 10000000,
    d_rate := 1000000000, b_rate := 1000000001, ir_mod := 1000000000,
    b_supply := 3, d_supply := 1, backstop_credit := 0,
    collateral_cap := 1000000000000000, enabled := true }

/-- C3 counterexample: gulp with accrued = 5 > 0 and bstop_rate = 10^7
decreases b_rate from 1000000001 to 1000000000, refuting
"the floor-rounded b_rate recomputation in gulp never decreases b_rate when
accrued > 0" (and hence the monotonicity claim quantified over every reserve
and every input). -/
theorem c3_counterexample :
    (0 : Int) < 5 ∧
    (c3Reserve.gulp 10000000 5).b_rate < c3Reserve.b_rate := by
  constructor
  · norm_num
  · decide

/-- C3 (amended): when the backstop take rate is strictly below 100%
(bstop_rate < 10^7, which every configured pool satisfies) and the external
interest-rate curve returns an accrual factor of at least 10^9 (no negative
interest), each Reserve::load call leaves d_rate and b_rate no smaller, and
gulp with accrued > 0 never decreases b_rate; monotonicity across any
sequence of such load calls follows call by call. -/
theorem c3_rates_monotone (r : Reserve) (now : Nat) (bstop_rate : Int)
    (calcAccrual : Int → Int → Nat → Int × Int)
    (hb : 0 < r.b_supply) (hbr : 0 ≤ r.b_rate) (hdr : 0 ≤ r.d_rate)
    (hr0 : 0 ≤ bstop_rate) (hr1 : bstop_rate < SCALAR_7)
    (hacc : ∀ u m t, SCALAR_9 ≤ (calcAccrual u m t).1) :
    (∀ accrued : Int, 0 < accrued → r.b_rate ≤ (r.gulp bstop_rate accrued).b_rate) ∧
    r.d_rate ≤ (r.load now bstop_rate calcAccrual).d_rate ∧
    r.b_rate ≤ (r.load now bstop_rate calcAccrual).b_rate := by
  refine ⟨fun accrued _ => gulp_b_rate_le r bstop_rate accrued hb hbr hr0 hr1, ?_⟩
  unfold Reserve.load
  split_ifs with h1 h2 h3
  · exact ⟨le_refl _, le_refl _⟩
  · exact ⟨le_refl _, le_refl _⟩
  · exact ⟨le_refl _, le_refl _⟩
  · have h9 : (0 : Int) < SCALAR_9 := by norm_num [SCALAR_9]
    dsimp only
    constructor
    · rw [gulp_d_rate_eq]
      show r.d_rate ≤ fixed_mul_ceil (calcAccrual r.utilization r.ir_mod r.last_time).1 r.d_rate SCALAR_9
      unfold fixed_mul_ceil
      apply le_ceilDiv_of_mul_le h9
      calc r.d_rate * SCALAR_9 = SCALAR_9 * r.d_rate := by ring
        _ ≤ (calcAccrual r.utilization r.ir_mod r.last_time).1 * r.d_rate :=
          mul_le_mul_of_nonneg_right (hacc _ _ _) hdr
    · exact gulp_b_rate_le _ bstop_rate _ hb hbr hr0 hr1


/-- Constant interest curve used to witness the amended C3. -/
def c3CalcAccrual : Int → Int → Nat → Int × Int :=
  fun _ _ _ => (1000001141, 1000000000)

/-- Concrete reserve used to witness the amended C3. -/
def c3WitReserve : Reserve :=
  { asset := 0, index := 0, l_factor := 7500000, c_factor := 7500000,
    max_util := 9500000, last_time := 0, scalar := 10000000,
    d_rate := 1000000000, b_rate := 1000000000, ir_mod := 1000000000,
    b_supply := 1000000000, d_supply := 750000000, backstop_credit := 0,
    collateral_cap := 1000000000000000, enabled := true }

theorem c3_rates_monotone_witness :
    ((0 : Int) < c3WitReserve.b_supply ∧ (0 : Int) ≤ c3WitReserve.b_rate ∧
      (0 : Int) ≤ c3WitReserve.d_rate ∧ (0 : Int) ≤ 1000000 ∧ (1000000 : Int) < SCALAR_7) ∧
    ((∀ accrued : Int, 0 < accrued →
        c3WitReserve.b_rate ≤ (c3WitReserve.gulp 1000000 accrued).b_rate) ∧
      c3WitReserve.d_rate ≤ (c3WitReserve.load 600 1000000 c3CalcAccrual).d_rate ∧
      c3WitReserve.b_rate ≤ (c3WitReserve.load 600 1000000 c3CalcAccrual).b_rate) :=
  ⟨⟨by decide, by decide, by decide, by decide, by decide⟩,
    c3_rates_monotone c3WitReserve 600 1000000 c3CalcAccrual (by decide) (by decide)
      (by decide) (by decide) (by decide)
      (fun u m t => by simp [c3CalcAccrual, SCALAR_9])⟩

/-! ### Association-list maps (soroban Map with Nat keys, Int values, default 0) -/

def alGet : List (Nat × Int) → Nat → Int
  | [], _ => 0
  | (k', v) :: t, k => if k' = k then v else alGet t k

def alSet : List (Nat × Int) → Nat → Int → List (Nat × Int)
  | [], k, v => [(k, v)]
  | (k', v') :: t, k, v => if k' = k then (k, v) :: t else (k', v') :: alSet t k v

def alRemove : List (Nat × Int) → Nat → List (Nat × Int)
  | [], _ => []
  | (k', v') :: t, k => if k' = k then t else (k', v') :: alRemove t k

/-- Sum of the values stored under key k (equals alGet when keys are distinct). -/
def listSumFor : List (Nat × Int) → Nat → Int
  | [], _ => 0
  | (k', v) :: t, k => (if k' = k then v else 0) + listSumFor t k

theorem alGet_alSet_self (l : List (Nat × Int)) (k : Nat) (v : Int) :
    alGet (alSet l k v) k = v := by
  induction l with
  | nil => simp [alSet, alGet]
  | cons p t ih =>
    obtain ⟨k', v'⟩ := p
    by_cases h : k' = k
    · simp [alSet, h, alGet]
    · simp [alSet, h, alGet, ih]

theorem alGet_alSet_ne (l : List (Nat × Int)) (k j : Nat) (v : Int) (hkj : k ≠ j) :
    alGet (alSet l k v) j = alGet l j := by
  induction l with
  | nil => simp [alSet, alGet, hkj]
  | cons p t ih =>
    obtain ⟨k', v'⟩ := p
    by_cases h : k' = k
    · simp [alSet, h, alGet, hkj]
    · simp only [alSet, if_neg h, alGet, ih]

theorem alGet_eq_zero_of_not_mem (l : List (Nat × Int)) (k : Nat)
    (h : k ∉ l.map Prod.fst) : alGet l k = 0 := by
  induction l with
  | nil => rfl
  | cons p t ih =>
    obtain ⟨k', v⟩ := p
    simp only [List.map_cons, List.mem_cons] at h
    push_neg at h
    simp only [alGet, if_neg (Ne.symm h.1), ih h.2]

theorem keys_alSet (l : List (Nat × Int)) (k : Nat) (v : Int) :
    (alSet l k v).map Prod.fst = l.map Prod.fst ∨
    (alSet l k v).map Prod.fst = l.map Prod.fst ++ [k] := by
  induction l with
  | nil => right; rfl
  | cons p t ih =>
    obtain ⟨k', v'⟩ := p
    by_cases h : k' = k
    · left; simp [alSet, h]
    · rcases ih with h2 | h2
      · left; simp [alSet, h, h2]
      · right; simp [alSet, h, h2]

theorem nodup_keys_alSet (l : List (Nat × Int)) (k : Nat) (v : Int)
    (h : (l.map Prod.fst).Nodup) : ((alSet l k v).map Prod.fst).Nodup := by
  induction l with
  | nil => simp [alSet]
  | cons p t ih =>
    obtain ⟨k', v'⟩ := p
    simp only [List.map_cons, List.nodup_cons] at h
    by_cases hk : k' = k
    · subst hk
      have hset : alSet ((k', v') :: t) k' v = (k', v) :: t := by
        simp [alSet]
      rw [hset]
      simp only [List.map_cons, List.nodup_cons]
      exact ⟨h.1, h.2⟩
    · simp only [alSet]
      rw [if_neg hk]
      simp only [List.map_cons, List.nodup_cons]
      refine ⟨?_, ih h.2⟩
      rcases keys_alSet t k v with h2 | h2
      · rw [h2]; exact h.1
      · rw [h2]
        simp only [List.mem_append, List.mem_singleton]
        push_neg
        exact ⟨h.1, hk⟩

/-! ### Actions and batch transfer settlement (src/pool/src/pool/submit.rs) -/

/-- The transient batch result: per-asset amounts the spender owes the pool
and the pool owes the recipient, plus the check_health flag raised by
requests that can reduce collateral or increase liabilities. -/
structure Actions where
  spender_transfer : List (Nat × Int)
  pool_transfer : List (Nat × Int)
  check_health : Bool
deriving DecidableEq, Repr

/-- A token transfer performed against the token contracts: either from the
spender into the pool, or from the pool out to the recipient. -/
inductive TransferOp
  | toPool (token : Nat) (amount : Int)
  | toDest (token : Nat) (amount : Int)
deriving DecidableEq, Repr

def opToken : TransferOp → Nat
  | .toPool t _ => t
  | .toDest t _ => t

/-- Signed effect of a transfer from the spender point of view: negative when
tokens go into the pool, positive when the pool pays out. -/
def opSigned : TransferOp → Int
  | .toPool _ m => -m
  | .toDest _ m => m

/-- The net balance map built by handle_transfer_with_allowance: spender
entries subtract, pool entries add; pool owes when positive. -/
def net_balances (a : Actions) : List (Nat × Int) :=
  let m1 := a.spender_transfer.foldl (fun m p => alSet m p.1 (alGet m p.1 - p.2)) []
  a.pool_transfer.foldl (fun m p => alSet m p.1 (alGet m p.1 + p.2)) m1

/-- Emission loop of handle_transfer_with_allowance: one transfer_from of the
absolute value for a negative net, one transfer for a positive net, nothing
for a zero net. -/
def emitNet : List (Nat × Int) → List TransferOp
  | [] => []
  | (k, v) :: t =>
    if v < 0 then TransferOp.toPool k (-v) :: emitNet t
    else if v > 0 then TransferOp.toDest k v :: emitNet t
    else emitNet t

def handle_transfer_with_allowance (a : Actions) : List TransferOp :=
  emitNet (net_balances a)

/-- handle_transfers: the direct path transfers every accumulated entry of
spender_transfer and pool_transfer as is. -/
def handle_transfers (a : Actions) : List TransferOp :=
  a.spender_transfer.map (fun p => TransferOp.toPool p.1 p.2) ++
  a.pool_transfer.map (fun p => TransferOp.toDest p.1 p.2)

/-- Net signed amount moved for token k by a list of transfers. -/
def opsNetFor : List TransferOp → Nat → Int
  | [], _ => 0
  | o :: t, k => (if opToken o = k then opSigned o else 0) + opsNetFor t k

/-- The per-asset batch net: pool-owed minus spender-owed. -/
def assetNet (a : Actions) (k : Nat) : Int :=
  listSumFor a.pool_transfer k - listSumFor a.spender_transfer k

theorem alGet_foldl_sub (l : List (Nat × Int)) (m : List (Nat × Int)) (k : Nat) :
    alGet (l.foldl (fun m p => alSet m p.1 (alGet m p.1 - p.2)) m) k =
      alGet m k - listSumFor l k := by
  induction l generalizing m with
  | nil => simp [listSumFor]
  | cons p t ih =>
    simp only [List.foldl_cons, listSumFor, ih]
    by_cases h : p.1 = k
    · subst h; rw [alGet_alSet_self, if_pos rfl]; ring
    · rw [alGet_alSet_ne _ _ _ _ h, if_neg h]; ring

theorem alGet_foldl_add (l : List (Nat × Int)) (m : List (Nat × Int)) (k : Nat) :
    alGet (l.foldl (fun m p => alSet m p.1 (alGet m p.1 + p.2)) m) k =
      alGet m k + listSumFor l k := by
  induction l generalizing m with
  | nil => simp [listSumFor]
  | cons p t ih =>
    simp only [List.foldl_cons, listSumFor, ih]
    by_cases h : p.1 = k
    · subst h; rw [alGet_alSet_self, if_pos rfl]; ring
    · rw [alGet_alSet_ne _ _ _ _ h, if_neg h]; ring

theorem nodup_keys_foldl_alSet (g : List (Nat × Int) → Nat × Int → Int) :
    ∀ (l m : List (Nat × Int)), (m.map Prod.fst).Nodup →
      ((l.foldl (fun m p => alSet m p.1 (g m p)) m).map Prod.fst).Nodup := by
  intro l
  induction l with
  | nil => intro m hm; exact hm
  | cons p t ih =>
    intro m hm
    exact ih _ (nodup_keys_alSet m p.1 (g m p) hm)

theorem nodup_keys_net_balances (a : Actions) :
    ((net_balances a).map Prod.fst).Nodup := by
  unfold net_balances
  exact nodup_keys_foldl_alSet (fun m p => alGet m p.1 + p.2) _ _
    (nodup_keys_foldl_alSet (fun m p => alGet m p.1 - p.2) _ [] (by simp))

theorem alGet_net_balances (a : Actions) (k : Nat) :
    alGet (net_balances a) k = assetNet a k := by
  unfold net_balances assetNet
  rw [alGet_foldl_add, alGet_foldl_sub]
  simp [alGet]
  ring

theorem opsNetFor_emitNet (m : List (Nat × Int)) (k : Nat)
    (h : (m.map Prod.fst).Nodup) : opsNetFor (emitNet m) k = alGet m k := by
  induction m with
  | nil => rfl
  | cons p t ih =>
    obtain ⟨k', v⟩ := p
    simp only [List.map_cons, List.nodup_cons] at h
    have htail := ih h.2
    by_cases hk : k' = k
    · subst hk
      have hzero : alGet t k' = 0 := alGet_eq_zero_of_not_mem t k' h.1
      rw [hzero] at htail
      unfold emitNet
      rcases lt_trichotomy v 0 with hv | hv | hv
      · rw [if_pos hv]
        simp [opsNetFor, opToken, opSigned, alGet, htail]
      · subst hv
        rw [if_neg (by norm_num), if_neg (by norm_num)]
        simp [alGet, htail]
      · rw [if_neg (by omega), if_pos hv]
        simp [opsNetFor, opToken, opSigned, alGet, htail]
    · unfold emitNet
      rcases lt_trichotomy v 0 with hv | hv | hv
      · rw [if_pos hv]
        simp [opsNetFor, opToken, opSigned, alGet, hk, htail]
      · subst hv
        rw [if_neg (by norm_num), if_neg (by norm_num)]
        simp [alGet, hk, htail]
      · rw [if_neg (by omega), if_pos hv]
        simp [opsNetFor, opToken, opSigned, alGet, hk, htail]

theorem emitNet_signed_ne_zero (m : List (Nat × Int)) :
    ∀ op ∈ emitNet m, opSigned op ≠ 0 := by
  induction m with
  | nil => intro op hop; cases hop
  | cons p t ih =>
    obtain ⟨k, v⟩ := p
    intro op hop
    unfold emitNet at hop
    rcases lt_trichotomy v 0 with hv | hv | hv
    · rw [if_pos hv] at hop
      rcases List.mem_cons.mp hop with h | h
      · subst h; simp [opSigned]; omega
      · exact ih op h
    · subst hv
      rw [if_neg (by norm_num), if_neg (by norm_num)] at hop
      exact ih op hop
    · rw [if_neg (by omega), if_pos hv] at hop
      rcases List.mem_cons.mp hop with h | h
      · subst h; simp [opSigned]; omega
      · exact ih op h

theorem emitNet_tokens_sublist (m : List (Nat × Int)) :
    ((emitNet m).map opToken).Sublist (m.map Prod.fst) := by
  induction m with
  | nil => simp [emitNet]
  | cons p t ih =>
    obtain ⟨k, v⟩ := p
    unfold emitNet
    rcases lt_trichotomy v 0 with hv | hv | hv
    · rw [if_pos hv]
      simpa [opToken] using List.Sublist.cons₂ k ih
    · subst hv
      rw [if_neg (by norm_num), if_neg (by norm_num)]
      exact List.Sublist.cons k ih
    · rw [if_neg (by omega), if_pos hv]
      simpa [opToken] using List.Sublist.cons₂ k ih

theorem opsNetFor_append (l1 l2 : List TransferOp) (k : Nat) :
    opsNetFor (l1 ++ l2) k = opsNetFor l1 k + opsNetFor l2 k := by
  induction l1 with
  | nil => simp [opsNetFor]
  | cons o t ih =>
    simp only [List.cons_append, opsNetFor, List.append_eq, ih]
    ring

theorem opsNetFor_map_toPool (l : List (Nat × Int)) (k : Nat) :
    opsNetFor (l.map (fun p => TransferOp.toPool p.1 p.2)) k = -listSumFor l k := by
  induction l with
  | nil => rfl
  | cons p t ih =>
    simp only [List.map_cons, opsNetFor, opToken, opSigned, listSumFor, ih]
    by_cases h : p.1 = k
    · simp only [if_pos h]; ring
    · simp only [if_neg h]; ring

theorem opsNetFor_map_toDest (l : List (Nat × Int)) (k : Nat) :
    opsNetFor (l.map (fun p => TransferOp.toDest p.1 p.2)) k = listSumFor l k := by
  induction l with
  | nil => rfl
  | cons p t ih =>
    simp only [List.map_cons, opsNetFor, opToken, opSigned, listSumFor, ih]

/-! ### Claim C2: transfer settlement netting -/

/-- Batch refuting C2 as stated: the spender owes 10 and the pool owes 4 of
the same token. -/
def c2Actions : Actions :=
  { spender_transfer := [(0, 10)], pool_transfer := [(0, 4)], check_health := false }

/-- C2 counterexample: on a batch where the spender owes 10 and the pool owes
4 of the same token (net 6 owed by the spender), the direct path
handle_transfers performs two gross transfers (10 in, 4 out) for that one
asset instead of the single nonzero net transfer of 6 that the allowance
path performs, so netting does not hold for both settlement strategies. -/
theorem c2_counterexample :
    handle_transfers c2Actions = [TransferOp.toPool 0 10, TransferOp.toDest 0 4] ∧
    assetNet c2Actions 0 = -6 ∧
    ¬ ((handle_transfers c2Actions).map opToken).Nodup ∧
    handle_transfers c2Actions ≠ handle_transfer_with_allowance c2Actions ∧
    handle_transfer_with_allowance c2Actions = [TransferOp.toPool 0 6] :=
  ⟨rfl, by decide, by decide, by decide, by decide⟩

/-- C2 (amended): per-asset netting with only a nonzero net delta actually
transferred holds for the allowance (transfer_from) settlement path: it
performs at most one transfer per asset, every transfer it performs is
nonzero, and the signed amount moved per asset equals pool-owed minus
spender-owed over the whole batch. The direct push/pull path instead
performs one gross transfer per accumulated entry without netting (its
per-asset signed total still equals the same net). -/
theorem c2_allowance_netting (a : Actions) :
    (∀ k, opsNetFor (handle_transfer_with_allowance a) k = assetNet a k) ∧
    (∀ op, op ∈ handle_transfer_with_allowance a → opSigned op ≠ 0) ∧
    ((handle_transfer_with_allowance a).map opToken).Nodup ∧
    (∀ k, opsNetFor (handle_transfers a) k = assetNet a k) := by
  refine ⟨?_, ?_, ?_, ?_⟩
  · intro k
    unfold handle_transfer_with_allowance
    rw [opsNetFor_emitNet _ _ (nodup_keys_net_balances a), alGet_net_balances]
  · exact emitNet_signed_ne_zero (net_balances a)
  · exact (emitNet_tokens_sublist (net_balances a)).nodup (nodup_keys_net_balances a)
  · intro k
    unfold handle_transfers assetNet
    rw [opsNetFor_append, opsNetFor_map_toPool, opsNetFor_map_toDest]
    ring

/-- Batch used to witness the amended C2. -/
def c2WitActions : Actions :=
  { spender_transfer := [(0, 10), (1, 3)], pool_transfer := [(0, 4)], check_health := true }

theorem c2_allowance_netting_witness :
    opsNetFor (handle_transfer_with_allowance c2WitActions) 0 = assetNet c2WitActions 0 ∧
    TransferOp.toPool 0 6 ∈ handle_transfer_with_allowance c2WitActions ∧
    opSigned (TransferOp.toPool 0 6) ≠ 0 :=
  ⟨(c2_allowance_netting c2WitActions).1 0, by decide,
    (c2_allowance_netting c2WitActions).2.1 (TransferOp.toPool 0 6) (by decide)⟩

/-! ### User positions. The Positions record and the User mutators live in
pool files that are not under src/ (user.rs); they are modelled from the
spec and from their use sites in submit.rs and bad_debt.rs. -/

/-- Modelled from the spec: per-user position maps, indexed by reserve index:
collateral b_tokens, liability d_tokens, and unpledged supply b_tokens
(user.rs is not under src/). -/
structure Positions where
  liabilities : List (Nat × Int)
  collateral : List (Nat × Int)
  supply : List (Nat × Int)
deriving DecidableEq, Repr

/-- Modelled from the spec: User::has_liabilities, true when the user holds
at least one liability entry. -/
def Positions.has_liabilities (p : Positions) : Bool :=
  !p.liabilities.isEmpty

/-- Modelled from the spec: User::add_liabilities adds d_tokens to the user
position for the reserve (the paired Reserve d_supply increase is applied
separately at the call sites of this model). -/
def Positions.add_liabilities (p : Positions) (idx : Nat) (amount : Int) : Positions :=
  { p with liabilities := alSet p.liabilities idx (alGet p.liabilities idx + amount) }

/-- Modelled from the spec: User::remove_liabilities subtracts d_tokens from
the user position for the reserve, deleting the entry when the remaining
balance is zero. -/
def Positions.remove_liabilities (p : Positions) (idx : Nat) (amount : Int) : Positions :=
  if alGet p.liabilities idx - amount = 0 then
    { p with liabilities := alRemove p.liabilities idx }
  else
    { p with liabilities := alSet p.liabilities idx (alGet p.liabilities idx - amount) }

inductive PoolError
  | BadRequest
  | InvalidHf
  | InvalidUtilRate
  | ReserveDisabled
deriving DecidableEq, Repr

/-! ### Claim C7: bad-debt transfer (src/pool/src/pool/bad_debt.rs) -/

/-- transfer_bad_debt_to_backstop: fails with BadRequest when the user is the
backstop, or holds collateral, or holds no liabilities; otherwise moves every
liability entry of the user, in full, onto the backstop position. Reserve
loading is accounting-neutral here (the d_supply increase from the backstop
add is exactly cancelled by the user remove), so the model tracks the two
position records. -/
def transfer_bad_debt_to_backstop (backstopAddr userAddr : Nat)
    (userPos backstopPos : Positions) : Except PoolError (Positions × Positions) :=
  if userAddr = backstopAddr then .error .BadRequest
  else if !userPos.collateral.isEmpty || userPos.liabilities.isEmpty then .error .BadRequest
  else
    .ok (userPos.liabilities.foldl
      (fun st e => (st.1.remove_liabilities e.1 e.2, st.2.add_liabilities e.1 e.2))
      (userPos, backstopPos))

theorem badDebtFold_fst (l : List (Nat × Int)) (u b : Positions) :
    (l.foldl (fun st e => (st.1.remove_liabilities e.1 e.2, st.2.add_liabilities e.1 e.2))
      (u, b)).1 = l.foldl (fun q e => q.remove_liabilities e.1 e.2) u := by
  induction l generalizing u b with
  | nil => rfl
  | cons p t ih => simp only [List.foldl_cons]; exact ih _ _

theorem badDebtFold_snd (l : List (Nat × Int)) (u b : Positions) :
    (l.foldl (fun st e => (st.1.remove_liabilities e.1 e.2, st.2.add_liabilities e.1 e.2))
      (u, b)).2 = l.foldl (fun q e => q.add_liabilities e.1 e.2) b := by
  induction l generalizing u b with
  | nil => rfl
  | cons p t ih => simp only [List.foldl_cons]; exact ih _ _

theorem foldl_remove_all (l : List (Nat × Int)) :
    ∀ u : Positions, u.liabilities = l → (l.map Prod.fst).Nodup →
      l.foldl (fun q e => q.remove_liabilities e.1 e.2) u =
        { u with liabilities := [] } := by
  induction l with
  | nil => intro u hu _; simp only [List.foldl_nil]; cases u; simp_all
  | cons p t ih =>
    intro u hu hnd
    obtain ⟨k, v⟩ := p
    simp only [List.map_cons, List.nodup_cons] at hnd
    simp only [List.foldl_cons]
    have hget : alGet u.liabilities k = v := by rw [hu]; simp [alGet]
    have hrem : u.remove_liabilities k v = { u with liabilities := t } := by
      unfold Positions.remove_liabilities
      rw [hget, if_pos (by ring)]
      rw [hu]
      simp [alRemove]
    rw [hrem]
    exact ih _ rfl hnd.2

theorem foldl_add_alGet (l : List (Nat × Int)) :
    ∀ (b : Positions) (idx : Nat),
      alGet ((l.foldl (fun q e => q.add_liabilities e.1 e.2) b).liabilities) idx =
        alGet b.liabilities idx + listSumFor l idx := by
  induction l with
  | nil => intro b idx; simp [listSumFor]
  | cons p t ih =>
    intro b idx
    simp only [List.foldl_cons]
    rw [ih]
    unfold Positions.add_liabilities
    simp only [listSumFor]
    by_cases h : p.1 = idx
    · subst h; rw [alGet_alSet_self, if_pos rfl]; ring
    · rw [alGet_alSet_ne _ _ _ _ h, if_neg h]; ring

theorem listSumFor_eq_alGet (l : List (Nat × Int)) (k : Nat)
    (h : (l.map Prod.fst).Nodup) : listSumFor l k = alGet l k := by
  induction l with
  | nil => rfl
  | cons p t ih =>
    obtain ⟨k', v⟩ := p
    simp only [List.map_cons, List.nodup_cons] at h
    by_cases hk : k' = k
    · subst hk
      rw [listSumFor, alGet, if_pos rfl, if_pos rfl, ih h.2,
        alGet_eq_zero_of_not_mem t k' h.1]
      ring
    · rw [listSumFor, alGet, if_neg hk, if_neg hk, ih h.2]
      ring

/-- C7: transfer_bad_debt_to_backstop fails with BadRequest exactly when the
target user is the backstop itself, holds nonzero collateral, or holds zero
liabilities; otherwise it removes the entire d_token liability balance of the
user for every reserve and adds exactly the same d_token amount to the
backstop liability for that reserve, with no double-counting across reserves
(the map keys are distinct, as soroban Map guarantees). -/
theorem c7_bad_debt (backstopAddr userAddr : Nat) (userPos backstopPos : Positions)
    (hnd : (userPos.liabilities.map Prod.fst).Nodup) :
    (transfer_bad_debt_to_backstop backstopAddr userAddr userPos backstopPos =
        .error .BadRequest ↔
      (userAddr = backstopAddr ∨ userPos.collateral ≠ [] ∨ userPos.liabilities = [])) ∧
    (∀ uNew bNew,
      transfer_bad_debt_to_backstop backstopAddr userAddr userPos backstopPos =
        .ok (uNew, bNew) →
      uNew.liabilities = [] ∧ uNew.collateral = userPos.collateral ∧
      uNew.supply = userPos.supply ∧
      ∀ idx, alGet bNew.liabilities idx =
        alGet backstopPos.liabilities idx + alGet userPos.liabilities idx) := by
  unfold transfer_bad_debt_to_backstop
  split_ifs with h1 h2
  · constructor
    · simp only [true_iff]
      exact Or.inl h1
    · intro uNew bNew h
      cases h
  · constructor
    · simp only [true_iff]
      rcases Bool.or_eq_true _ _ |>.mp h2 with h | h
      · right; left
        simp only [Bool.not_eq_true'] at h
        intro hcol
        rw [hcol] at h
        simp at h
      · right; right
        exact List.isEmpty_iff.mp h
    · intro uNew bNew h
      cases h
  · constructor
    · simp only [false_iff]
      push_neg
      have hcol : userPos.collateral = [] := by
        by_contra hc
        apply h2
        simp [List.isEmpty_iff, hc]
      have hliab : userPos.liabilities ≠ [] := by
        intro hl
        apply h2
        simp [hl]
      exact ⟨h1, hcol, hliab⟩
    · intro uNew bNew h
      have hpair := Except.ok.inj h
      have hu : uNew = userPos.liabilities.foldl
          (fun q e => q.remove_liabilities e.1 e.2) userPos := by
        rw [← badDebtFold_fst userPos.liabilities userPos backstopPos, hpair]
      have hb : bNew = userPos.liabilities.foldl
          (fun q e => q.add_liabilities e.1 e.2) backstopPos := by
        rw [← badDebtFold_snd userPos.liabilities userPos backstopPos, hpair]
      rw [foldl_remove_all userPos.liabilities userPos rfl hnd] at hu
      subst hu hb
      refine ⟨rfl, rfl, rfl, ?_⟩
      intro idx
      rw [foldl_add_alGet, listSumFor_eq_alGet _ _ hnd]

/-- Concrete bad-debt transfer scenario used to witness C7. -/
def c7User : Positions :=
  { liabilities := [(0, 240000000), (1, 250000000)], collateral := [], supply := [] }

def c7Backstop : Positions :=
  { liabilities := [], collateral := [], supply := [] }

theorem c7_bad_debt_witness :
    (c7User.liabilities.map Prod.fst).Nodup ∧
    (transfer_bad_debt_to_backstop 0 1 c7User c7Backstop = .error .BadRequest ↔
      ((1 : Nat) = 0 ∨ c7User.collateral ≠ [] ∨ c7User.liabilities = [])) ∧
    (∀ idx, alGet (Positions.mk [(0, 240000000), (1, 250000000)] [] []).liabilities idx =
      alGet c7Backstop.liabilities idx + alGet c7User.liabilities idx) :=
  ⟨by decide, (c7_bad_debt 0 1 c7User c7Backstop (by decide)).1,
    ((c7_bad_debt 0 1 c7User c7Backstop (by decide)).2
      (Positions.mk [] [] []) (Positions.mk [(0, 240000000), (1, 250000000)] [] [])
      rfl).2.2.2⟩

/-! ### Submit orchestrator (src/pool/src/pool/submit.rs). The action
builder build_actions_from_request (actions.rs) and the health factor
PositionData::calculate_from_positions / is_hf_under (health_factor.rs,
backed by the oracle) are not under src/; they are abstracted as function
parameters: the builder maps the loaded positions to (new positions,
check_health flag), and isHfUnder is the oracle-backed health predicate. -/

/-- execute_submit: guards against self-referential addresses, builds the
actions, then checks health only when the check_health flag was raised and
the user holds liabilities. The Bool paired with the returned positions
records whether the oracle-backed health factor computation ran (it is
short-circuited away otherwise, exactly as the source && chain does). -/
def execute_submit (poolAddr fromAddr spender toAddr : Nat)
    (buildActions : Positions → Positions × Bool)
    (isHfUnder : Positions → Int → Bool)
    (pos0 : Positions) : Except PoolError (Positions × Bool) :=
  if fromAddr = poolAddr ∨ spender = poolAddr ∨ toAddr = poolAddr then .error .BadRequest
  else if (buildActions pos0).2 && (buildActions pos0).1.has_liabilities &&
      isHfUnder (buildActions pos0).1 MIN_HEALTH_FACTOR then
    .error .InvalidHf
  else
    .ok ((buildActions pos0).1,
      (buildActions pos0).2 && (buildActions pos0).1.has_liabilities)

/-- C4: execute_submit fails with InvalidHf exactly when the address guards
pass, some request raised check_health, the user holds at least one liability
after the requests, and the recomputed health factor is under 1.0000100; and
in every successful run the oracle-backed health computation ran only when
check_health was raised and the user holds liabilities, in particular never
when the user holds no liabilities. -/
theorem c4_submit_health (poolAddr fromAddr spender toAddr : Nat)
    (buildActions : Positions → Positions × Bool)
    (isHfUnder : Positions → Int → Bool) (pos0 : Positions) :
    (execute_submit poolAddr fromAddr spender toAddr buildActions isHfUnder pos0 =
        .error .InvalidHf ↔
      (fromAddr ≠ poolAddr ∧ spender ≠ poolAddr ∧ toAddr ≠ poolAddr ∧
        (buildActions pos0).2 = true ∧
        (buildActions pos0).1.has_liabilities = true ∧
        isHfUnder (buildActions pos0).1 MIN_HEALTH_FACTOR = true)) ∧
    (∀ ps oracleRan,
      execute_submit poolAddr fromAddr spender toAddr buildActions isHfUnder pos0 =
        .ok (ps, oracleRan) →
      oracleRan = ((buildActions pos0).2 && ps.has_liabilities) ∧
      (ps.has_liabilities = false → oracleRan = false)) := by
  unfold execute_submit
  split_ifs with h1 h2
  · constructor
    · constructor
      · intro h
        exact absurd (Except.error.inj h) (by decide)
      · rintro ⟨ha, hb, hc, -⟩
        rcases h1 with h | h | h
        · exact absurd h ha
        · exact absurd h hb
        · exact absurd h hc
    · intro ps oracleRan h
      cases h
  · constructor
    · refine iff_of_true rfl ?_
      push_neg at h1
      simp only [Bool.and_eq_true] at h2
      exact ⟨h1.1, h1.2.1, h1.2.2, h2.1.1, h2.1.2, h2.2⟩
    · intro ps oracleRan h
      cases h
  · constructor
    · constructor
      · intro h
        cases h
      · rintro ⟨-, -, -, hch, hliab, hhf⟩
        exact absurd (by rw [hch, hliab, hhf]; rfl) h2
    · intro ps oracleRan h
      injection h with hpair
      injection hpair with hps hor
      subst hps
      subst hor
      refine ⟨rfl, ?_⟩
      intro hfalse
      rw [hfalse, Bool.and_false]

/-- Action builder instance used to witness C4: the batch leaves the user
with one liability entry and raises check_health. -/
def c4Build : Positions → Positions × Bool :=
  fun _ => (Positions.mk [(1, 5)] [] [], true)

/-- Health predicate instance used to witness C4: always under threshold. -/
def c4HfUnder : Positions → Int → Bool :=
  fun _ _ => true

theorem c4_submit_health_witness :
    execute_submit 0 1 2 3 c4Build c4HfUnder (Positions.mk [] [] []) =
      .error .InvalidHf :=
  (c4_submit_health 0 1 2 3 c4Build c4HfUnder (Positions.mk [] [] [])).1.mpr
    ⟨by decide, by decide, by decide, by decide, by decide, by decide⟩

/-! ### Flash-loan submit (execute_submit_with_flash_loan) -/

structure FlashLoan where
  contract : Nat
  asset : Nat
  amount : Int
deriving DecidableEq, Repr

/-- Externally visible steps of execute_submit_with_flash_loan, in program
order: minting the flash-loan liabilities (to_d_token_up, into position and
reserve d_supply), the utilization cap check, processing the submitted
requests, the health-factor check, the principal transfer to the receiver
contract, the exec_op callback, the batch transfer settlement, and the final
state store. -/
inductive FLEvent
  | mintLiabilities
  | utilCheck
  | processRequests
  | healthCheck
  | transferPrincipal
  | execOp
  | settleTransfers
  | storeState
deriving DecidableEq, Repr

/-- execute_submit_with_flash_loan: mints the flash-loan liabilities before
the submitted requests are processed, caps utilization immediately, processes
the batch, health-checks (no check_health flag in this path), and only then
transfers the principal and invokes the receiver callback. Alongside the
result it returns the ordered trace of steps actually performed (a panic
truncates the trace). -/
def execute_submit_with_flash_loan (poolAddr fromAddr : Nat) (fl : FlashLoan)
    (res : Reserve) (buildActions : Positions → Positions)
    (isHfUnder : Positions → Int → Bool) (pos0 : Positions) :
    Except PoolError Positions × List FLEvent :=
  if fromAddr = poolAddr then (.error .BadRequest, [])
  else
    let d_tokens_minted := res.to_d_token_up fl.amount
    let res1 := { res with d_supply := res.d_supply + d_tokens_minted }
    let pos1 := pos0.add_liabilities res.index d_tokens_minted
    if res1.utilization > res1.max_util then
      (.error .InvalidUtilRate, [.mintLiabilities, .utilCheck])
    else
      let pos2 := buildActions pos1
      if pos2.has_liabilities && isHfUnder pos2 MIN_HEALTH_FACTOR then
        (.error .InvalidHf,
          [.mintLiabilities, .utilCheck, .processRequests, .healthCheck])
      else
        (.ok pos2,
          [.mintLiabilities, .utilCheck, .processRequests, .healthCheck,
            .transferPrincipal, .execOp, .settleTransfers, .storeState])

/-- C1: in the flash-loan path the liabilities are minted first via
to_d_token_up and the reserve utilization is checked immediately afterwards
(failing with InvalidUtilRate when it exceeds max_util, before any request is
processed); whenever the utilization cap passes, the health check is
performed after the user requests, never skipped (there is no check_health
flag in this path), and the call fails with InvalidHf exactly when the
oracle-backed health factor of the resulting positions is under 1.0000100
(a user with no liabilities is never under the threshold, since the
effective-liability denominator is zero). -/
theorem c1_flash_loan_checks (poolAddr fromAddr : Nat) (fl : FlashLoan) (res : Reserve)
    (buildActions : Positions → Positions) (isHfUnder : Positions → Int → Bool)
    (pos0 : Positions)
    (hfrom : fromAddr ≠ poolAddr)
    (hhf0 : ∀ p : Positions, p.has_liabilities = false →
      isHfUnder p MIN_HEALTH_FACTOR = false) :
    ((execute_submit_with_flash_loan poolAddr fromAddr fl res buildActions isHfUnder
        pos0).2.take 2 = [FLEvent.mintLiabilities, FLEvent.utilCheck]) ∧
    ((execute_submit_with_flash_loan poolAddr fromAddr fl res buildActions isHfUnder
        pos0).1 = .error .InvalidUtilRate ↔
      ({ res with d_supply := res.d_supply + res.to_d_token_up fl.amount } :
        Reserve).utilization > res.max_util) ∧
    ((execute_submit_with_flash_loan poolAddr fromAddr fl res buildActions isHfUnder
        pos0).1 = .error .InvalidHf ↔
      (({ res with d_supply := res.d_supply + res.to_d_token_up fl.amount } :
          Reserve).utilization ≤ res.max_util ∧
        isHfUnder (buildActions (pos0.add_liabilities res.index
          (res.to_d_token_up fl.amount))) MIN_HEALTH_FACTOR = true)) ∧
    (({ res with d_supply := res.d_supply + res.to_d_token_up fl.amount } :
        Reserve).utilization ≤ res.max_util →
      (execute_submit_with_flash_loan poolAddr fromAddr fl res buildActions isHfUnder
        pos0).2.take 4 =
        [FLEvent.mintLiabilities, FLEvent.utilCheck, FLEvent.processRequests,
          FLEvent.healthCheck]) := by
  unfold execute_submit_with_flash_loan
  rw [if_neg hfrom]
  dsimp only
  split_ifs with hu hh
  · refine ⟨rfl, iff_of_true rfl hu, ?_, ?_⟩
    · constructor
      · intro h
        exact absurd (Except.error.inj h) (by decide)
      · rintro ⟨hle, -⟩
        exact absurd hu (not_lt.mpr hle)
    · intro hle
      exact absurd hu (not_lt.mpr hle)
  · refine ⟨rfl, ?_, ?_, fun _ => rfl⟩
    · constructor
      · intro h
        exact absurd (Except.error.inj h) (by decide)
      · intro h
        exact absurd h hu
    · exact iff_of_true rfl ⟨not_lt.mp hu, (Bool.and_eq_true _ _ |>.mp hh).2⟩
  · refine ⟨rfl, ?_, ?_, fun _ => rfl⟩
    · exact iff_of_false (fun h => nomatch h) (fun h => absurd h hu)
    · constructor
      · intro h
        exact (nomatch h)
      · rintro ⟨-, hisf⟩
        apply absurd _ hh
        cases hb : (buildActions (pos0.add_liabilities res.index
            (res.to_d_token_up fl.amount))).has_liabilities
        · rw [hhf0 _ hb] at hisf
          exact (nomatch hisf)
        · rw [hisf]
          rfl

/-- Reserve used to witness C1 and C10: 100 supplied, 50 borrowed, unit
rates, max_util 95%. -/
def flReserve : Reserve :=
  { asset := 0, index := 0, l_factor := 7500000, c_factor := 7500000,
    max_util := 9500000, last_time := 600, scalar := 10000000,
    d_rate := 1000000000, b_rate := 1000000000, ir_mod := 1000000000,
    b_supply := 1000000000, d_supply := 500000000, backstop_credit := 0,
    collateral_cap := 1000000000000000, enabled := true }

def flLoan : FlashLoan :=
  { contract := 2, asset := 0, amount := 250000000 }

/-- Request processor instance used for the flash-loan witnesses: the batch
leaves the positions unchanged. -/
def flBuild : Positions → Positions :=
  fun p => p

/-- Health predicate instance used to witness C1: under threshold exactly
when the user holds liabilities (so debt-free users are never under). -/
def c1Hf : Positions → Int → Bool :=
  fun p _ => p.has_liabilities

theorem c1_flash_loan_checks_witness :
    (1 : Nat) ≠ 0 ∧
    (execute_submit_with_flash_loan 0 1 flLoan flReserve flBuild c1Hf
      (Positions.mk [] [] [])).1 = .error .InvalidHf :=
  ⟨by decide,
    (c1_flash_loan_checks 0 1 flLoan flReserve flBuild c1Hf (Positions.mk [] [] [])
      (by decide) (fun p hp => by simp [c1Hf, hp])).2.2.1.mpr ⟨by decide, by decide⟩⟩

/-- C10: the InvalidHf health check happens strictly before the flash-loan
principal leaves the pool and before the receiver callback: a run that fails
the health check performs no principal transfer and no exec_op call, and in
every run each principal transfer and each exec_op call is preceded by the
completed health check (so the callback cannot influence it). -/
theorem c10_health_precedes_outflow (poolAddr fromAddr : Nat) (fl : FlashLoan)
    (res : Reserve) (buildActions : Positions → Positions)
    (isHfUnder : Positions → Int → Bool) (pos0 : Positions) :
    ((execute_submit_with_flash_loan poolAddr fromAddr fl res buildActions isHfUnder
        pos0).1 = .error .InvalidHf →
      FLEvent.transferPrincipal ∉ (execute_submit_with_flash_loan poolAddr fromAddr fl
        res buildActions isHfUnder pos0).2 ∧
      FLEvent.execOp ∉ (execute_submit_with_flash_loan poolAddr fromAddr fl res
        buildActions isHfUnder pos0).2) ∧
    (FLEvent.execOp ∈ (execute_submit_with_flash_loan poolAddr fromAddr fl res
        buildActions isHfUnder pos0).2 →
      FLEvent.healthCheck ∈ ((execute_submit_with_flash_loan poolAddr fromAddr fl res
        buildActions isHfUnder pos0).2.takeWhile (fun e => e != FLEvent.execOp))) ∧
    (FLEvent.transferPrincipal ∈ (execute_submit_with_flash_loan poolAddr fromAddr fl
        res buildActions isHfUnder pos0).2 →
      FLEvent.healthCheck ∈ ((execute_submit_with_flash_loan poolAddr fromAddr fl res
        buildActions isHfUnder pos0).2.takeWhile
          (fun e => e != FLEvent.transferPrincipal))) := by
  unfold execute_submit_with_flash_loan
  by_cases h1 : fromAddr = poolAddr
  · rw [if_pos h1]
    refine ⟨?_, ?_, ?_⟩
    · intro h
      exact absurd (Except.error.inj h) (by decide)
    · intro h
      exact absurd h (by decide)
    · intro h
      exact absurd h (by decide)
  · rw [if_neg h1]
    dsimp only
    split_ifs with hu hh
    · refine ⟨?_, ?_, ?_⟩
      · intro h
        exact absurd (Except.error.inj h) (by decide)
      · intro h
        exact absurd h (by decide)
      · intro h
        exact absurd h (by decide)
    · refine ⟨fun _ => ⟨by decide, by decide⟩, ?_, ?_⟩
      · intro h
        exact absurd h (by decide)
      · intro h
        exact absurd h (by decide)
    · refine ⟨?_, ?_, ?_⟩
      · intro h
        exact (nomatch h)
      · intro _
        exact (by decide : FLEvent.healthCheck ∈ List.takeWhile
          (fun e => e != FLEvent.execOp)
          [FLEvent.mintLiabilities, FLEvent.utilCheck, FLEvent.processRequests,
            FLEvent.healthCheck, FLEvent.transferPrincipal, FLEvent.execOp,
            FLEvent.settleTransfers, FLEvent.storeState])
      · intro _
        exact (by decide : FLEvent.healthCheck ∈ List.takeWhile
          (fun e => e != FLEvent.transferPrincipal)
          [FLEvent.mintLiabilities, FLEvent.utilCheck, FLEvent.processRequests,
            FLEvent.healthCheck, FLEvent.transferPrincipal, FLEvent.execOp,
            FLEvent.settleTransfers, FLEvent.storeState])

/-- Health predicate instance used to witness C10: never under threshold, so
the run reaches the callback. -/
def c10Hf : Positions → Int → Bool :=
  fun _ _ => false

theorem c10_health_precedes_outflow_witness :
    FLEvent.execOp ∈ (execute_submit_with_flash_loan 0 1 flLoan flReserve flBuild c10Hf
      (Positions.mk [] [] [])).2 ∧
    FLEvent.healthCheck ∈ ((execute_submit_with_flash_loan 0 1 flLoan flReserve flBuild
      c10Hf (Positions.mk [] [] [])).2.takeWhile (fun e => e != FLEvent.execOp)) :=
  ⟨by decide,
    (c10_health_precedes_outflow 0 1 flLoan flReserve flBuild c10Hf
      (Positions.mk [] [] [])).2.1 (by decide)⟩

/-! ### Backstop emissions distributor (src/backstop/src/emissions/distributor.rs) -/

structure PoolBalance where
  shares : Int
  tokens : Int
  q4w : Int
deriving DecidableEq, Repr

structure UserBalance where
  shares : Int
deriving DecidableEq, Repr

structure BackstopEmissionConfig where
  expiration : Nat
  eps : Int
deriving DecidableEq, Repr

structure BackstopEmissionsData where
  index : Int
  last_time : Nat
deriving DecidableEq, Repr

structure UserEmissionData where
  index : Int
  accrued : Int
deriving DecidableEq, Repr

/-- Abort causes of the distributor: require_nonnegative (a validation error
on a negative amount) and an arithmetic abort (u64 subtraction overflow, or
the unwrap of a failed fixed-point division). -/
inductive EmisError
  | NegativeAmount
  | Overflow
deriving DecidableEq, Repr

/-- update_emission_data_with_config: returns the stored data unchanged when
the config was expired at the last update, the data was already updated this
timestamp, eps is zero, or the pool has no shares; otherwise checks
unqueued shares for nonnegativity, subtracts last_time from the capped
timestamp (u64 subtraction, aborting when negative), divides by the unqueued
shares (aborting when they are zero), and advances the index. -/
def update_emission_data_with_config (now : Nat) (pool_balance : PoolBalance)
    (emis_config : BackstopEmissionConfig) (emis_data : BackstopEmissionsData) :
    Except EmisError BackstopEmissionsData :=
  if emis_config.expiration ≤ emis_data.last_time ∨ now = emis_data.last_time ∨
      emis_config.eps = 0 ∨ pool_balance.shares = 0 then
    .ok emis_data
  else
    let max_timestamp := if emis_config.expiration < now then emis_config.expiration else now
    let unqueued_shares := pool_balance.shares - pool_balance.q4w
    if unqueued_shares < 0 then .error .NegativeAmount
    else if max_timestamp < emis_data.last_time then .error .Overflow
    else if unqueued_shares = 0 then .error .Overflow
    else
      .ok { index := fixed_div_floor
              (((max_timestamp : Int) - (emis_data.last_time : Int)) * emis_config.eps)
              unqueued_shares SCALAR_7 + emis_data.index,
            last_time := now }

/-- set_user_emissions: on a claim the accrued amount is returned and zero is
stored; otherwise it is stored and zero returned. -/
def set_user_emissions (index accrued : Int) (to_claim : Bool) :
    UserEmissionData × Int :=
  if to_claim then ({ index := index, accrued := 0 }, accrued)
  else ({ index := index, accrued := accrued }, 0)

/-- update_user_emissions: accrues shares times the index delta onto the
stored accrual (three cases: prior record, fresh user with no shares,
pre-emissions depositor), returning the stored record and the amount to send
on a claim. -/
def update_user_emissions (emis_data : BackstopEmissionsData)
    (user_data : Option UserEmissionData) (user_balance : UserBalance)
    (to_claim : Bool) : Except EmisError (UserEmissionData × Int) :=
  match user_data with
  | some ud =>
    if ud.index ≠ emis_data.index ∨ to_claim then
      if user_balance.shares ≠ 0 then
        if emis_data.index - ud.index < 0 then .error .NegativeAmount
        else
          .ok (set_user_emissions emis_data.index
            (ud.accrued + fixed_mul_floor user_balance.shares
              (emis_data.index - ud.index) SCALAR_7) to_claim)
      else .ok (set_user_emissions emis_data.index ud.accrued to_claim)
    else .ok ({ index := ud.index, accrued := ud.accrued }, 0)
  | none =>
    if user_balance.shares = 0 then
      .ok (set_user_emissions emis_data.index 0 to_claim)
    else
      .ok (set_user_emissions emis_data.index
        (fixed_mul_floor user_balance.shares emis_data.index SCALAR_7) to_claim)

/-- Pool state refuting C6 as stated: every share is queued for withdrawal
(shares = q4w = 5), so unqueued shares are zero but none of the claimed
return/failure conditions applies. -/
def c6CePool : PoolBalance := { shares := 5, tokens := 5, q4w := 5 }

def c6CeConfig : BackstopEmissionConfig := { expiration := 10, eps := 1 }

def c6CeData : BackstopEmissionsData := { index := 0, last_time := 0 }

/-- C6 counterexample: with nonzero shares all queued for withdrawal
(shares = q4w = 5), none of the unchanged-return conditions holds,
shares - q4w is not negative and last_time exceeds neither now nor the
expiration, yet the call aborts (division of the index delta by zero
unqueued shares) instead of advancing the index as the claim states. -/
theorem c6_counterexample :
    update_emission_data_with_config 1 c6CePool c6CeConfig c6CeData =
      .error .Overflow ∧
    ∀ d : BackstopEmissionsData,
      update_emission_data_with_config 1 c6CePool c6CeConfig c6CeData ≠ .ok d := by
  constructor
  · rfl
  · intro d h
    rw [(rfl : update_emission_data_with_config 1 c6CePool c6CeConfig c6CeData =
      .error .Overflow)] at h
    cases h

/-- C6 (amended): update_emission_data returns the stored data unchanged when
already updated this instant, expired at last update, eps is zero or shares
are zero; otherwise it fails with a validation error when shares - q4w is
negative, fails with an arithmetic error when last_time exceeds the capped
timestamp min(now, expiration) (in particular when last_time > now) or when
the unqueued shares are exactly zero (division by zero), and otherwise
advances the index by floor((min(now, expiration) - last_time) * eps /
unqueued_shares) in 7-decimal fixed point; the update_emission_data wrapper
returns none exactly when no emission config exists. On the concrete
example (eps 0.1000000, 1234 seconds, 150.0000000 unqueued shares, index
22222) the new index is 8248888 and the prior user (9.0000000 shares, index
11111, accrued 3) ends with stored accrued 7.4139996. -/
theorem c6_emission_update (now : Nat) (pb : PoolBalance)
    (cfg : BackstopEmissionConfig) (d : BackstopEmissionsData) :
    ((cfg.expiration ≤ d.last_time ∨ now = d.last_time ∨ cfg.eps = 0 ∨ pb.shares = 0) →
      update_emission_data_with_config now pb cfg d = .ok d) ∧
    (¬(cfg.expiration ≤ d.last_time ∨ now = d.last_time ∨ cfg.eps = 0 ∨ pb.shares = 0) →
      (pb.shares - pb.q4w < 0 →
        update_emission_data_with_config now pb cfg d = .error .NegativeAmount) ∧
      (0 ≤ pb.shares - pb.q4w → min now cfg.expiration < d.last_time →
        update_emission_data_with_config now pb cfg d = .error .Overflow) ∧
      (0 < pb.shares - pb.q4w → d.last_time ≤ min now cfg.expiration →
        update_emission_data_with_config now pb cfg d =
          .ok { index := fixed_div_floor
                  ((((min now cfg.expiration : Nat) : Int) - (d.last_time : Int)) * cfg.eps)
                  (pb.shares - pb.q4w) SCALAR_7 + d.index,
                last_time := now }) ∧
      (pb.shares - pb.q4w = 0 →
        update_emission_data_with_config now pb cfg d = .error .Overflow)) ∧
    (update_emission_data_with_config 1234 (PoolBalance.mk 1500000000 2000000000 0)
        (BackstopEmissionConfig.mk 604800 1000000) (BackstopEmissionsData.mk 22222 0) =
      .ok (BackstopEmissionsData.mk 8248888 1234)) ∧
    (update_user_emissions (BackstopEmissionsData.mk 8248888 1234)
        (some (UserEmissionData.mk 11111 3)) (UserBalance.mk 90000000) false =
      .ok (UserEmissionData.mk 8248888 74139996, 0)) := by
  refine ⟨?_, ?_, rfl, rfl⟩
  · intro h
    unfold update_emission_data_with_config
    rw [if_pos h]
  · intro h
    unfold update_emission_data_with_config
    rw [if_neg h]
    dsimp only
    have hmax : (if cfg.expiration < now then cfg.expiration else now) =
        min now cfg.expiration := by
      split_ifs with hc
      · omega
      · omega
    rw [hmax]
    refine ⟨?_, ?_, ?_, ?_⟩
    · intro hneg
      rw [if_pos hneg]
    · intro hge hlt
      rw [if_neg (by omega), if_pos hlt]
    · intro hpos hle
      rw [if_neg (by omega), if_neg (by omega), if_neg (by omega)]
    · intro hzero
      rcases lt_or_le (min now cfg.expiration) d.last_time with hlt | hle
      · rw [if_neg (by omega), if_pos hlt]
      · rw [if_neg (by omega), if_neg (by omega), if_pos hzero]

theorem c6_emission_update_witness :
    ¬((604800 : Nat) ≤ 0 ∨ (1234 : Nat) = 0 ∨ (1000000 : Int) = 0 ∨
        (1500000000 : Int) = 0) ∧
    update_emission_data_with_config 1234 (PoolBalance.mk 1500000000 2000000000 0)
        (BackstopEmissionConfig.mk 604800 1000000) (BackstopEmissionsData.mk 22222 0) =
      .ok { index := fixed_div_floor
              ((((min 1234 604800 : Nat) : Int) - ((0 : Nat) : Int)) * 1000000)
              ((1500000000 : Int) - 0) SCALAR_7 + 22222,
            last_time := 1234 } :=
  ⟨by decide,
    ((c6_emission_update 1234 (PoolBalance.mk 1500000000 2000000000 0)
        (BackstopEmissionConfig.mk 604800 1000000)
        (BackstopEmissionsData.mk 22222 0)).2.1 (by decide)).2.2.1
      (by decide) (by decide)⟩

/-! ### Claim C9: the SupplyCollateral + Borrow submit scenario -/

/-- Modelled from the spec: the default test reserve fixture used by the
submit scenario (testutils.rs is not under src/): unit rates, b_supply
100.0000000, d_supply 75.0000000, 7-decimal asset. -/
def defaultReserve (asset idx : Nat) : Reserve :=
  { asset := asset, index := idx, l_factor := 7500000, c_factor := 7500000,
    max_util := 9500000, last_time := 0, scalar := 10000000,
    d_rate := 1000000000, b_rate := 1000000000, ir_mod := 1000000000,
    b_supply := 1000000000, d_supply := 750000000, backstop_credit := 0,
    collateral_cap := 170141183460469231731687303715884105727, enabled := true }

/-- Modelled from the spec: the external interest curve calc_accrual for the
default reserve at 75% utilization over the 600-second window of the
scenario returns the accrual factor 1.000001141 (9-decimal); interest.rs is
not under src/. -/
def scenarioCalcAccrual : Int → Int → Nat → Int × Int :=
  fun _ ir_mod _ => (1000001141, ir_mod)

/-- Reserve for asset A (price 1.0000000), freshly accrued at timestamp 600
with the 10% backstop take rate of the scenario pool. -/
def scenarioReserveA : Reserve :=
  (defaultReserve 0 0).load 600 1000000 scenarioCalcAccrual

/-- Reserve for asset B (price 5.0000000), freshly accrued likewise. -/
def scenarioReserveB : Reserve :=
  (defaultReserve 1 1).load 600 1000000 scenarioCalcAccrual

/-- Modelled from the spec: the SupplyCollateral dispatch of the action
builder (actions.rs is not under src/): mint b_tokens rounding down, add
them to the user collateral, record the amount owed by the spender. -/
def apply_supply_collateral (r : Reserve) (p : Positions) (acts : Actions)
    (amount : Int) : Reserve × Positions × Actions :=
  let b_tokens := r.to_b_token_down amount
  let r2 := { r with b_supply := r.b_supply + b_tokens }
  let p2 :=
    { p with collateral := alSet p.collateral r.index (alGet p.collateral r.index + b_tokens) }
  let a2 := { acts with spender_transfer := acts.spender_transfer ++ [(r.asset, amount)] }
  (r2, p2, a2)

/-- Modelled from the spec: the Borrow dispatch of the action builder: mint
d_tokens rounding up, add them to the user liabilities, record the amount
owed by the pool, raise check_health. -/
def apply_borrow (r : Reserve) (p : Positions) (acts : Actions)
    (amount : Int) : Reserve × Positions × Actions :=
  let d_tokens := r.to_d_token_up amount
  let r2 := { r with d_supply := r.d_supply + d_tokens }
  let p2 :=
    { p with liabilities := alSet p.liabilities r.index (alGet p.liabilities r.index + d_tokens) }
  let a2 :=
    { acts with pool_transfer := acts.pool_transfer ++ [(r.asset, amount)], check_health := true }
  (r2, p2, a2)

/-- The C9 scenario: SupplyCollateral(15.0000000) of asset A, then
Borrow(1.5000000) of asset B, against the freshly accrued default reserves,
settled with the direct transfer path. Returns the final positions, the
accumulated actions and the performed transfers. -/
def scenarioRun : Positions × Actions × List TransferOp :=
  let s1 := apply_supply_collateral scenarioReserveA
    (Positions.mk [] [] []) (Actions.mk [] [] false) 150000000
  let s2 := apply_borrow scenarioReserveB s1.2.1 s1.2.2 15000000
  (s2.2.1, s2.2.2, handle_transfers s2.2.2)

/-- Net change of the pool token balance for token k under a transfer list
(inflow from the spender positive, outflow to the recipient negative). -/
def poolBalanceDelta : List TransferOp → Nat → Int
  | [], _ => 0
  | .toPool t m :: rest, k => (if t = k then m else 0) + poolBalanceDelta rest k
  | .toDest t m :: rest, k => (if t = k then -m else 0) + poolBalanceDelta rest k

/-- C9: the batch yields a collateral position of exactly 14.9999884
b_tokens of reserve A and a liability of exactly 1.4999983 d_tokens of
reserve B, while the pool balances change by exactly the requested amounts:
+15.0000000 of asset A and -1.5000000 of asset B. The oracle prices (1:5)
enter only the health check, which this healthy position passes. -/
theorem c9_submit_scenario :
    scenarioRun.1.collateral = [(0, 149999884)] ∧
    scenarioRun.1.liabilities = [(1, 14999983)] ∧
    scenarioRun.1.supply = [] ∧
    scenarioRun.2.2 = [TransferOp.toPool 0 150000000, TransferOp.toDest 1 15000000] ∧
    poolBalanceDelta scenarioRun.2.2 0 = 150000000 ∧
    poolBalanceDelta scenarioRun.2.2 1 = -15000000 := by
  refine ⟨rfl, rfl, rfl, rfl, by decide, by decide⟩

end Blend
